import Mathlib

/-!
Verification of the Land-Home-Sale listings application (`app.py`).

The Flask routes, the SQLAlchemy models and the helper functions of
`app.py` are shallowly embedded below: the two tables become lists of
records, SQL query chains become executable filter functions, and the
upload folder becomes an association list from filenames to byte
contents.  Numeric columns (`Float` in the schema) are modelled as
rationals; `None`-able columns are `Option`s.  Python numeral parsing
(`float(s)` / `int(s)` and Flask's `type=float` coercion) is modelled on
the grammar actually exercised by web forms: optional surrounding
whitespace, optional sign, decimal digits with an optional fractional
part (exponents, underscores, `inf`/`nan` are outside the model).
External collaborators (HTML rendering, password hashing, werkzeug's
filename sanitizer) are out of scope, exactly as in the code's own
boundaries: routes receive the already-sanitized upload name and the
already-computed password hash as inputs.
-/

/-- Image contents: a byte string, each byte a `Nat` below 256. -/
abbrev Bytes : Type := List Nat

/-- Python `str.strip()` on ASCII data: drop leading and trailing
whitespace characters. -/
def pyStrip (s : String) : String :=
  ⟨((s.data.dropWhile Char.isWhitespace).reverse.dropWhile Char.isWhitespace).reverse⟩

/-- Lowercase the characters of a string, as SQL `lower` / Python `.lower()`
do on ASCII data (`Char.toLower` only affects basic latin letters). -/
def lowerList (s : String) : List Char :=
  s.data.map Char.toLower

/-- Value of a list of decimal digit characters, most significant first. -/
def digitsVal (ds : List Char) : Nat :=
  ds.foldl (fun a c => 10 * a + (c.toNat - 48)) 0

/-- Python `float(s)` on the form-input grammar: optional whitespace trim,
optional sign, then digits with an optional dot-separated fractional part
(at least one digit overall).  Returns `none` when `float` would raise
`ValueError`. -/
def pyFloat (s : String) : Option ℚ :=
  let t := (pyStrip s).data
  let neg : Bool := t.head? == some '-'
  let r : List Char :=
    match t with
    | '-' :: r => r
    | '+' :: r => r
    | r => r
  let intPart := r.takeWhile Char.isDigit
  let rest := r.dropWhile Char.isDigit
  let mag : Option ℚ :=
    match rest with
    | [] =>
      if intPart.isEmpty then none else some (digitsVal intPart)
    | '.' :: fr =>
      if fr.all Char.isDigit && !(intPart.isEmpty && fr.isEmpty) then
        some ((digitsVal intPart : ℚ) + (digitsVal fr : ℚ) / (10 ^ fr.length : ℚ))
      else none
    | _ => none
  mag.map fun m => if neg then -m else m

/-- Python `int(s)` on the form-input grammar: optional whitespace trim,
optional sign, then a non-empty run of digits.  `none` when `int` would
raise `ValueError`. -/
def pyInt (s : String) : Option ℤ :=
  let t := (pyStrip s).data
  let neg : Bool := t.head? == some '-'
  let r : List Char :=
    match t with
    | '-' :: r => r
    | '+' :: r => r
    | r => r
  if !r.isEmpty && r.all Char.isDigit then
    some (if neg then -(digitsVal r : ℤ) else (digitsVal r : ℤ))
  else none

/-- UTF-8 encoding of a Unicode code point, as a list of byte values. -/
def utf8Bytes (n : Nat) : List Nat :=
  if n < 128 then [n]
  else if n < 2048 then [192 + n / 64, 128 + n % 64]
  else if n < 65536 then [224 + n / 4096, 128 + n / 64 % 64, 128 + n % 64]
  else [240 + n / 262144, 128 + n / 4096 % 64, 128 + n / 64 % 64, 128 + n % 64]

/-- Uppercase hexadecimal digit for a value below 16. -/
def hexDigit (n : Nat) : Char :=
  if n < 10 then Char.ofNat (48 + n) else Char.ofNat (55 + n)

/-- Characters `urllib.parse.quote_plus` never escapes. -/
def quoteSafe (c : Char) : Bool :=
  c.isAlphanum || c == '-' || c == '_' || c == '.' || c == '~'

/-- Model of `urllib.parse.quote_plus`: keep unreserved ASCII characters,
turn spaces into `+`, and percent-encode every UTF-8 byte of anything
else with uppercase hex digits. -/
def quotePlus (s : String) : String :=
  ⟨s.data.flatMap fun c =>
    if quoteSafe c then [c]
    else if c = ' ' then ['+']
    else (utf8Bytes c.toNat).flatMap fun b => ['%', hexDigit (b / 16), hexDigit (b % 16)]⟩

/-- `build_gmaps_link` from `app.py`: the synthesized maps-search URL. -/
def build_gmaps_link (location : String) : String :=
  "https://www.google.com/maps/search/?api=1&query=" ++ quotePlus location

/-- A row of the `user` table. -/
structure User where
  id : Nat
  name : String
  email : String
  password_hash : String
  role : String
deriving DecidableEq

/-- A row of the `property` table. -/
structure Property where
  id : Nat
  title : String
  description : Option String
  location : String
  property_type : String
  sale_or_rent : String
  price : Option ℚ
  rent : Option ℚ
  area : Option ℚ
  rooms : Option ℤ
  contact : String
  image_filename : Option String
  gmap_link : String
  owner_id : Nat
deriving DecidableEq

/-- The search filters of the `/properties` route after request parsing:
`location`, `ptype` (query parameter `type`) and `mode` use the empty
string for "absent" (the route tests them for truthiness), the numeric
filters use `none` for "absent". -/
structure Filters where
  location : String
  ptype : String
  mode : String
  min_price : Option ℚ
  max_price : Option ℚ
  min_rent : Option ℚ
  max_rent : Option ℚ
  min_area : Option ℚ
  max_area : Option ℚ
  rooms : Option ℤ
deriving DecidableEq

/-- SQL `LIKE` pattern matching over characters: `%` matches any sequence,
`_` matches any single character, anything else matches itself. -/
def likeMatch : List Char → List Char → Bool
  | [], s => s.isEmpty
  | pc :: ps, s =>
    if pc = '%' then
      likeMatch ps s ||
        (match s with
         | [] => false
         | _ :: s2 => likeMatch (pc :: ps) s2)
    else
      match s with
      | [] => false
      | c :: s2 => (pc == '_' || pc == c) && likeMatch ps s2
termination_by p s => (p.length, s.length)

/-- The pattern `ilike(f"%{q}%")` compiles to: both sides lowercased, the
filter text enclosed in `%`. -/
def likePattern (q : String) : List Char :=
  '%' :: (lowerList q ++ ['%'])

/-- SQL comparison `column >= q` on a nullable column: `NULL` compares as
unknown, so the row is excluded. -/
def nullGe (v : Option ℚ) (q : ℚ) : Bool :=
  match v with
  | none => false
  | some x => decide (q ≤ x)

/-- SQL comparison `column <= q` on a nullable column. -/
def nullLe (v : Option ℚ) (q : ℚ) : Bool :=
  match v with
  | none => false
  | some x => decide (x ≤ q)

/-- SQL comparison `column == q` on a nullable integer column. -/
def nullEq (v : Option ℤ) (q : ℤ) : Bool :=
  match v with
  | none => false
  | some x => x == q

/-- The WHERE clause built by the `/properties` route (lines 102-122 of
`app.py`): one conjunct per supplied filter, in the order the code chains
`query.filter`. -/
def queryMatches (f : Filters) (p : Property) : Bool :=
  (f.location == "" || likeMatch (likePattern f.location) (lowerList p.location))
  && (f.ptype == "" || p.property_type == f.ptype)
  && (f.mode == "" || p.sale_or_rent == f.mode)
  && (match f.min_price with | none => true | some q => nullGe p.price q)
  && (match f.max_price with | none => true | some q => nullLe p.price q)
  && (match f.min_rent with | none => true | some q => nullGe p.rent q)
  && (match f.max_rent with | none => true | some q => nullLe p.rent q)
  && (match f.min_area with | none => true | some q => nullGe p.area q)
  && (match f.max_area with | none => true | some q => nullLe p.area q)
  && (match f.rooms with | none => true | some q => nullEq p.rooms q)

/-- Descending-id comparison handed to the sort, from
`order_by(Property.id.desc())`. -/
def idDescLe (a b : Property) : Bool :=
  decide (b.id ≤ a.id)

/-- The `/properties` query: rows satisfying the WHERE clause, ordered by
`id` descending. -/
def search (db : List Property) (f : Filters) : List Property :=
  (db.filter (queryMatches f)).mergeSort idDescLe

/-- Substring occurrence test over character lists: some split of `s`
exhibits `q` as a contiguous segment. -/
def isSubstr (q s : List Char) : Bool :=
  (List.range (s.length + 1)).any fun i => (s.drop i).take q.length == q

/-- The filter predicate as the specification words it: location is a
case-insensitive substring test, the other filters are exact matches or
inclusive bounds, a missing numeric value never satisfies a comparison,
and omitted filters impose no constraint. -/
def specMatches (f : Filters) (p : Property) : Bool :=
  (f.location == "" || isSubstr (lowerList f.location) (lowerList p.location))
  && (f.ptype == "" || p.property_type == f.ptype)
  && (f.mode == "" || p.sale_or_rent == f.mode)
  && (match f.min_price with | none => true | some q => nullGe p.price q)
  && (match f.max_price with | none => true | some q => nullLe p.price q)
  && (match f.min_rent with | none => true | some q => nullGe p.rent q)
  && (match f.max_rent with | none => true | some q => nullLe p.rent q)
  && (match f.min_area with | none => true | some q => nullGe p.area q)
  && (match f.max_area with | none => true | some q => nullLe p.area q)
  && (match f.rooms with | none => true | some q => nullEq p.rooms q)

/-- Decimal digits, least significant first, by fuel-bounded division:
`natDigitsRevF fuel n` is correct whenever `n ≤ fuel`. -/
def natDigitsRevF : Nat → Nat → List Nat
  | 0, n => [n % 10]
  | fuel + 1, n => if n < 10 then [n] else n % 10 :: natDigitsRevF fuel (n / 10)

/-- Decimal digits of `n`, least significant first. -/
def natDigitsRev (n : Nat) : List Nat :=
  natDigitsRevF n n

/-- The character for a decimal digit. -/
def digitChar (d : Nat) : Char :=
  Char.ofNat (48 + d)

/-- Decimal rendering of a natural number, modelling Python's `str(i)` on
the nonnegative integers interpolated into f-strings. -/
def natStr (n : Nat) : String :=
  ⟨(natDigitsRev n).reverse.map digitChar⟩

/-- The candidate name `f"{base}_{i}{ext}"` tried by `save_image`. -/
def suffixName (base ext : String) (i : Nat) : String :=
  base ++ "_" ++ natStr i ++ ext

/-- `os.path.splitext` on a bare filename: split at the last dot, unless
every character before that dot is itself a dot (leading dots are not an
extension separator). -/
def splitext (s : String) : String × String :=
  let cs := s.data
  let extLen := (cs.reverse.takeWhile fun c => c ≠ '.').length
  if extLen = cs.length then (s, "")
  else
    let stem := cs.take (cs.length - extLen - 1)
    if stem.any (fun c => c ≠ '.') then (⟨stem⟩, ⟨cs.drop (cs.length - extLen - 1)⟩)
    else (s, "")

/-- The upload folder: filenames with their stored byte contents. -/
abbrev Media : Type := List (String × Bytes)

/-- The filenames present in the upload folder. -/
def mediaNames (m : Media) : List String :=
  m.map Prod.fst

/-- The `while os.path.exists(path)` loop of `save_image`, trying
`base_i ext`, `base_(i+1) ext`, ... until a free name appears.  The loop
in the code terminates because only finitely many names exist; here the
same fact is expressed with a fuel argument that the caller sizes so it
cannot run out. -/
def collide (names : List String) (base ext : String) : Nat → Nat → String
  | i, 0 => suffixName base ext i
  | i, fuel + 1 =>
    let cand := suffixName base ext i
    if cand ∈ names then collide names base ext (i + 1) fuel else cand

/-- Core of `save_image` from `app.py`: given the sanitized filename (the
`secure_filename` call is external library code) and the upload bytes,
pick the first free name — the proposed one, else `base_1 ext`,
`base_2 ext`, ... — and write the file there. -/
def save_image (m : Media) (filename : String) (content : Bytes) : String × Media :=
  let pr := splitext filename
  let names := mediaNames m
  let final :=
    if filename ∈ names then collide names pr.1 pr.2 1 (names.length + 1)
    else filename
  (final, (final, content) :: m)

/-- An uploaded file as the routes see it: its (sanitized) filename and
its bytes. -/
structure UploadFile where
  name : String
  content : Bytes
deriving DecidableEq

/-- `save_image` including its guard: `None` input, or a filename that is
empty after stripping, stores nothing and yields no reference. -/
def save_image_opt (m : Media) (file : Option UploadFile) : Option String × Media :=
  match file with
  | none => (none, m)
  | some u =>
    if pyStrip u.name = "" then (none, m)
    else
      let r := save_image m u.name u.content
      (some r.1, r.2)

/-- The mutable state the routes touch: the `property` table and the
upload folder. -/
structure AppState where
  db : List Property
  media : Media
deriving DecidableEq

/-- The fields posted to `/register`: `name`, `email`, `password` are read
with `request.form[...]` (present), `role` with a `'owner'` default. -/
structure RegForm where
  name : String
  email : String
  password : String
  role : Option String
deriving DecidableEq

/-- Outcome of the `/register` POST: the flash message branch taken. -/
inductive RegResult
  | fieldsRequiredMsg
  | emailTakenMsg
  | success
deriving DecidableEq

/-- The email normalization applied at registration and login:
`.strip().lower()`. -/
def normEmail (e : String) : String :=
  ⟨lowerList (pyStrip e)⟩

/-- The `/register` POST handler (lines 139-155 of `app.py`).  Password
hashing is external library code, so the computed hash arrives as the
`pwHash` argument; `nextId` is the id the store assigns to a new row. -/
def register (form : RegForm) (pwHash : String) (nextId : Nat) (users : List User) :
    RegResult × List User :=
  let name := pyStrip form.name
  let email := normEmail form.email
  if name = "" || email = "" || form.password = "" then (.fieldsRequiredMsg, users)
  else if users.any (fun u => u.email == email) then (.emailTakenMsg, users)
  else (.success,
    users ++ [{ id := nextId, name, email, password_hash := pwHash,
                role := form.role.getD "owner" }])

/-- The fields posted to `/add` and `/edit`: strings read with
`request.form[...]` are present, the rest are optional; numeric fields
arrive as raw text. -/
structure ListingForm where
  title : String
  description : Option String
  location : String
  property_type : String
  sale_or_rent : String
  area : Option String
  price : Option String
  rent : Option String
  rooms : Option String
  contact : String
  gmap_link : Option String
  image : Option UploadFile
deriving DecidableEq

/-- The idiom `float(request.form[k]) if request.form.get(k) else None`:
an absent or empty field becomes `None`; otherwise the text is parsed,
and a parse failure raises (outer `none`). -/
def parseField {α : Type} (parse : String → Option α) (s : Option String) :
    Option (Option α) :=
  match s with
  | none => some none
  | some str => if str = "" then some none else (parse str).map some

/-- Outcome of the `/add` POST. -/
inductive AddResult
  | ok (p : Property)
  | redirectLogin
  | crash
deriving DecidableEq

/-- The `/add` POST handler (lines 179-211 of `app.py`): require a
session, parse the numeric fields (an unparseable non-empty field raises,
leaving the state untouched), synthesize `gmap_link` when blank, store
the image if one was uploaded, and append the new row. -/
def add_property (caller : Option User) (form : ListingForm) (nextId : Nat)
    (st : AppState) : AddResult × AppState :=
  match caller with
  | none => (.redirectLogin, st)
  | some u =>
    match parseField pyFloat form.area, parseField pyFloat form.price,
          parseField pyFloat form.rent, parseField pyInt form.rooms with
    | some area, some price, some rent, some rooms =>
      let gl := pyStrip (form.gmap_link.getD "")
      let gmap := if gl = "" then build_gmaps_link form.location else gl
      let img := save_image_opt st.media form.image
      let p : Property :=
        { id := nextId, title := form.title, description := form.description,
          location := form.location, property_type := form.property_type,
          sale_or_rent := form.sale_or_rent, price, rent, area, rooms,
          contact := form.contact, image_filename := img.1, gmap_link := gmap,
          owner_id := u.id }
      (.ok p, { db := st.db ++ [p], media := img.2 })
    | _, _, _, _ => (.crash, st)

/-- Outcome of the `/edit` POST. -/
inductive EditResult
  | ok (p : Property)
  | redirectLogin
  | notFound
  | forbidden
  | crash
deriving DecidableEq

/-- The `/edit/<pid>` POST handler (lines 214-242 of `app.py`): require a
session, look the row up (404 when absent), reject a caller other than
the owner (403) before touching anything, then overwrite every scalar
field, resynthesize a blank `gmap_link` from the just-updated location,
and store a replacement image when one was uploaded (keeping the old
reference otherwise). -/
def edit_property (caller : Option User) (pid : Nat) (form : ListingForm)
    (st : AppState) : EditResult × AppState :=
  match caller with
  | none => (.redirectLogin, st)
  | some u =>
    match st.db.find? (fun p => p.id == pid) with
    | none => (.notFound, st)
    | some p =>
      if p.owner_id ≠ u.id then (.forbidden, st)
      else
        match parseField pyFloat form.area, parseField pyFloat form.price,
              parseField pyFloat form.rent, parseField pyInt form.rooms with
        | some area, some price, some rent, some rooms =>
          let gl := pyStrip (form.gmap_link.getD "")
          let gmap := if gl = "" then build_gmaps_link form.location else gl
          let img : Option String × Media :=
            match form.image with
            | none => (p.image_filename, st.media)
            | some f =>
              if pyStrip f.name = "" then (p.image_filename, st.media)
              else
                let r := save_image st.media f.name f.content
                (some r.1, r.2)
          let p2 : Property :=
            { p with
              title := form.title
              description := form.description
              location := form.location
              property_type := form.property_type
              sale_or_rent := form.sale_or_rent
              price := price
              rent := rent
              area := area
              rooms := rooms
              contact := form.contact
              image_filename := img.1
              gmap_link := gmap }
          (.ok p2,
           { db := st.db.map fun q => if q.id == pid then p2 else q,
             media := img.2 })
        | _, _, _, _ => (.crash, st)

/-- Outcome of the `/delete` POST. -/
inductive DeleteResult
  | deleted
  | redirectLogin
  | notFound
  | forbidden
deriving DecidableEq

/-- The `/delete/<pid>` POST handler (lines 245-261 of `app.py`): require
a session, look the row up, reject non-owners, remove the image file when
the row references one (`os.remove` failures are swallowed — removing an
absent name leaves the folder as it was), and drop the row. -/
def delete_property (caller : Option User) (pid : Nat) (st : AppState) :
    DeleteResult × AppState :=
  match caller with
  | none => (.redirectLogin, st)
  | some u =>
    match st.db.find? (fun p => p.id == pid) with
    | none => (.notFound, st)
    | some p =>
      if p.owner_id ≠ u.id then (.forbidden, st)
      else
        let media2 :=
          if (p.image_filename.getD "") ≠ "" then
            st.media.filter fun e => e.1 ≠ p.image_filename.getD ""
          else st.media
        (.deleted, { db := st.db.filter (fun q => q.id ≠ pid), media := media2 })

/-- The raw query string of `/properties`: each recognized parameter
either absent or some text. -/
structure RawQuery where
  location : Option String
  ptype : Option String
  mode : Option String
  min_price : Option String
  max_price : Option String
  min_rent : Option String
  max_rent : Option String
  min_area : Option String
  max_area : Option String
  rooms : Option String
deriving DecidableEq

/-- Request parsing of the `/properties` route (lines 91-100 of `app.py`):
`location` defaults to `''` and is stripped; `type` and `mode` default to
`''`; the numeric parameters use Flask's `type=float` / `type=int`
coercion, which silently falls back to the `None` default when the text
does not parse. -/
def parseFilters (r : RawQuery) : Filters :=
  { location := pyStrip (r.location.getD "")
    ptype := r.ptype.getD ""
    mode := r.mode.getD ""
    min_price := r.min_price.bind pyFloat
    max_price := r.max_price.bind pyFloat
    min_rent := r.min_rent.bind pyFloat
    max_rent := r.max_rent.bind pyFloat
    min_area := r.min_area.bind pyFloat
    max_area := r.max_area.bind pyFloat
    rooms := r.rooms.bind pyInt }

/-- The whole `/properties` route: parse the query string, run the
search. -/
def properties_route (r : RawQuery) (db : List Property) : List Property :=
  search db (parseFilters r)

/-- A filter string free of the SQL `LIKE` metacharacters. -/
def noWildcards (q : List Char) : Prop :=
  ∀ c ∈ q, c ≠ '%' ∧ c ≠ '_'

instance (q : List Char) : Decidable (noWildcards q) := by
  unfold noWildcards; infer_instance

theorem mem_search {db : List Property} {f : Filters} {p : Property} :
    p ∈ search db f ↔ p ∈ db ∧ queryMatches f p = true := by
  unfold search
  rw [List.mem_mergeSort, List.mem_filter]

theorem search_pairwise (db : List Property) (f : Filters)
    (h : (db.map Property.id).Nodup) :
    (search db f).Pairwise fun a b => b.id < a.id := by
  have hle : (search db f).Pairwise fun a b => idDescLe a b = true := by
    apply List.sorted_mergeSort
    · intro a b c hab hbc
      simp only [idDescLe, decide_eq_true_eq] at *
      omega
    · intro a b
      simp only [idDescLe]
      rw [Bool.or_eq_true]
      simp only [decide_eq_true_eq]
      omega
  have hsubl : List.Sublist ((db.filter (queryMatches f)).map Property.id)
      (db.map Property.id) :=
    (List.filter_sublist db).map Property.id
  have hfnodup : ((db.filter (queryMatches f)).map Property.id).Nodup :=
    List.Nodup.sublist hsubl h
  have hperm : List.Perm (search db f) (db.filter (queryMatches f)) :=
    List.mergeSort_perm _ _
  have hnodup : ((search db f).map Property.id).Nodup :=
    ((hperm.map Property.id).nodup_iff).mpr hfnodup
  have hne : (search db f).Pairwise fun a b => a.id ≠ b.id :=
    List.pairwise_map.mp hnodup
  refine (hle.and hne).imp ?_
  intro a b hab
  have h1 := hab.1
  simp only [idDescLe, decide_eq_true_eq] at h1
  omega

theorem likeMatch_pct (ps s : List Char) :
    likeMatch ('%' :: ps) s =
      (likeMatch ps s ||
        match s with
        | [] => false
        | _ :: s2 => likeMatch ('%' :: ps) s2) := by
  conv_lhs => rw [likeMatch.eq_def]
  simp

theorem likeMatch_cons (pc : Char) (ps s : List Char) (hp : pc ≠ '%') :
    likeMatch (pc :: ps) s =
      (match s with
       | [] => false
       | c :: s2 => (pc == '_' || pc == c) && likeMatch ps s2) := by
  conv_lhs => rw [likeMatch.eq_def]
  simp [hp]

theorem likeMatch_pct_iff (ps : List Char) (s : List Char) :
    likeMatch ('%' :: ps) s = true ↔
      ∃ i, i ≤ s.length ∧ likeMatch ps (s.drop i) = true := by
  induction s with
  | nil =>
    rw [likeMatch_pct]
    simp
  | cons c s2 ih =>
    rw [likeMatch_pct]
    rw [Bool.or_eq_true]
    constructor
    · rintro (h | h)
      · exact ⟨0, by simp, by simpa using h⟩
      · obtain ⟨i, hi, hm⟩ := ih.mp h
        exact ⟨i + 1, by simpa using hi, by simpa using hm⟩
    · rintro ⟨i, hi, hm⟩
      match i with
      | 0 => exact Or.inl (by simpa using hm)
      | j + 1 =>
        refine Or.inr (ih.mpr ⟨j, ?_, ?_⟩)
        · simpa using hi
        · simpa using hm

theorem likeMatch_pct_only (s : List Char) : likeMatch ['%'] s = true := by
  induction s with
  | nil =>
    rw [likeMatch_pct]
    simp [likeMatch]
  | cons c s2 ih =>
    rw [likeMatch_pct]
    simp [ih]

theorem likeMatch_append_pct (q : List Char) (hq : noWildcards q) (s : List Char) :
    likeMatch (q ++ ['%']) s = true ↔ ∃ t, s = q ++ t := by
  induction q generalizing s with
  | nil =>
    simp only [List.nil_append]
    constructor
    · intro _
      exact ⟨s, rfl⟩
    · intro _
      exact likeMatch_pct_only s
  | cons a q2 ih =>
    have ha1 : a ≠ '%' := (hq a (by simp)).1
    have ha2 : a ≠ '_' := (hq a (by simp)).2
    have hq2 : noWildcards q2 := fun c hc => hq c (List.mem_cons_of_mem a hc)
    rw [List.cons_append, likeMatch_cons a (q2 ++ ['%']) s ha1]
    cases s with
    | nil =>
      simp
    | cons c s2 =>
      have hbeq : (a == '_') = false := by
        rw [beq_eq_false_iff_ne]
        exact ha2
      simp only [hbeq, Bool.false_or, Bool.and_eq_true, beq_iff_eq, ih hq2 s2]
      constructor
      · rintro ⟨rfl, t, rfl⟩
        exact ⟨t, rfl⟩
      · rintro ⟨t, h⟩
        rw [List.cons_append] at h
        injection h with h1 h2
        exact ⟨h1.symm, t, h2⟩

theorem isSubstr_iff (q s : List Char) :
    isSubstr q s = true ↔ ∃ a b, s = a ++ q ++ b := by
  unfold isSubstr
  rw [List.any_eq_true]
  constructor
  · rintro ⟨i, hi, h⟩
    rw [List.mem_range] at hi
    rw [beq_iff_eq] at h
    refine ⟨s.take i, (s.drop i).drop q.length, ?_⟩
    have h1 : s.drop i = q ++ (s.drop i).drop q.length := by
      conv_lhs => rw [← List.take_append_drop q.length (s.drop i)]
      rw [h]
    conv_lhs => rw [← List.take_append_drop i s]
    rw [List.append_assoc, ← h1]
  · rintro ⟨a, b, rfl⟩
    refine ⟨a.length, ?_, ?_⟩
    · rw [List.mem_range]
      simp [List.length_append]
      omega
    · rw [beq_iff_eq, List.append_assoc, List.drop_left, List.take_left]

theorem likeMatch_eq_isSubstr (q s : List Char) (hq : noWildcards q) :
    likeMatch ('%' :: (q ++ ['%'])) s = isSubstr q s := by
  rw [Bool.eq_iff_iff]
  rw [likeMatch_pct_iff, isSubstr_iff]
  constructor
  · rintro ⟨i, hi, hm⟩
    obtain ⟨t, ht⟩ := (likeMatch_append_pct q hq _).mp hm
    refine ⟨s.take i, t, ?_⟩
    conv_lhs => rw [← List.take_append_drop i s]
    rw [ht, List.append_assoc]
  · rintro ⟨a, b, rfl⟩
    refine ⟨a.length, by simp [List.length_append], ?_⟩
    rw [List.append_assoc, List.drop_left]
    exact (likeMatch_append_pct q hq _).mpr ⟨b, rfl⟩

theorem queryMatches_eq_specMatches (f : Filters) (p : Property)
    (hq : noWildcards (lowerList f.location)) :
    queryMatches f p = specMatches f p := by
  unfold queryMatches specMatches likePattern
  rw [likeMatch_eq_isSubstr _ _ hq]

/-- The filter configuration of a request that supplies no filters. -/
def emptyFilters : Filters where
  location := ""
  ptype := ""
  mode := ""
  min_price := none
  max_price := none
  min_rent := none
  max_rent := none
  min_area := none
  max_area := none
  rooms := none

/-- A concrete listing whose location is `axb`. -/
def rowAxb : Property where
  id := 1
  title := "t"
  description := none
  location := "axb"
  property_type := "house"
  sale_or_rent := "sale"
  price := none
  rent := none
  area := none
  rooms := none
  contact := "c"
  image_filename := none
  gmap_link := "g"
  owner_id := 1

/-- A search whose location text contains the LIKE wildcard `%`. -/
def wildFilters : Filters :=
  { emptyFilters with location := "a%b" }

/-- The concrete listing of the specification's example scenario. -/
def rowLagos : Property where
  id := 1
  title := "2BR Flat"
  description := none
  location := "Lagos"
  property_type := "house"
  sale_or_rent := "rent"
  price := none
  rent := some 500
  area := none
  rooms := some 2
  contact := "c"
  image_filename := none
  gmap_link := "g"
  owner_id := 1

/-- The example scenario's search: location fragment plus rent bounds. -/
def lagosFilters : Filters :=
  { emptyFilters with
    location := "Lag"
    ptype := "house"
    min_rent := some 400
    max_rent := some 600 }

/-- C1, counterexample: with filter text `a%b`, the row at location `axb`
is returned by `search` although `a%b` is not a case-insensitive
substring of `axb` — the location filter is a SQL LIKE pattern, not a
plain substring test, so the claim as stated fails. -/
theorem search_substring_claim_cex :
    rowAxb ∈ search [rowAxb] wildFilters
      ∧ specMatches wildFilters rowAxb = false := by
  constructor
  · refine mem_search.mpr ⟨List.mem_singleton.mpr rfl, ?_⟩
    simp [queryMatches, wildFilters, emptyFilters, rowAxb, likePattern,
      lowerList, likeMatch]
  · decide

/-- C1 (amended): `search` returns exactly the rows satisfying every
supplied filter conjunctively, where the location filter is interpreted
as a case-insensitive SQL LIKE pattern `%text%` — which coincides with
case-insensitive substring matching whenever the filter text contains no
wildcard character — and, ids being unique, the returned sequence is
sorted by `id` strictly descending. -/
theorem search_like_characterization (db : List Property) (f : Filters)
    (hids : (db.map Property.id).Nodup) :
    (∀ p, p ∈ search db f ↔ p ∈ db ∧ queryMatches f p = true)
    ∧ (search db f).Pairwise (fun a b => b.id < a.id)
    ∧ (noWildcards (lowerList f.location) →
        ∀ p, queryMatches f p = specMatches f p) :=
  ⟨fun _ => mem_search, search_pairwise db f hids,
    fun hq p => queryMatches_eq_specMatches f p hq⟩

/-- C1, witness: the characterization applied to the example scenario. -/
theorem search_like_characterization_witness :
    (([rowLagos].map Property.id).Nodup)
    ∧ ((∀ p, p ∈ search [rowLagos] lagosFilters
          ↔ p ∈ [rowLagos] ∧ queryMatches lagosFilters p = true)
      ∧ (search [rowLagos] lagosFilters).Pairwise (fun a b => b.id < a.id)
      ∧ (noWildcards (lowerList lagosFilters.location) →
          ∀ p, queryMatches lagosFilters p = specMatches lagosFilters p)) :=
  ⟨by decide, search_like_characterization [rowLagos] lagosFilters (by decide)⟩

/-- C2: a row whose `price`, `rent`, `area` or `rooms` column is `NULL`
is excluded from every search that supplies a bound or exact filter on
that column. -/
theorem search_none_field_excluded (db : List Property) (f : Filters)
    (p : Property)
    (h : (p.price = none ∧ (f.min_price ≠ none ∨ f.max_price ≠ none))
       ∨ (p.rent = none ∧ (f.min_rent ≠ none ∨ f.max_rent ≠ none))
       ∨ (p.area = none ∧ (f.min_area ≠ none ∨ f.max_area ≠ none))
       ∨ (p.rooms = none ∧ f.rooms ≠ none)) :
    p ∉ search db f := by
  intro hmem
  have hq : queryMatches f p = true := (mem_search.mp hmem).2
  unfold queryMatches at hq
  rcases h with ⟨hv, hf | hf⟩ | ⟨hv, hf | hf⟩ | ⟨hv, hf | hf⟩ | ⟨hv, hf⟩ <;>
    obtain ⟨q, hq2⟩ := Option.ne_none_iff_exists'.mp hf <;>
    rw [hv, hq2] at hq <;>
    simp [nullGe, nullLe, nullEq] at hq

/-- A listing with no price recorded. -/
def rowNoPrice : Property :=
  { rowLagos with id := 2, price := none }

/-- A search supplying only a minimum price. -/
def minPriceFilters : Filters :=
  { emptyFilters with min_price := some 100 }

/-- C2, witness: the price-less row is excluded from a min-price search. -/
theorem search_none_field_excluded_witness :
    ((rowNoPrice.price = none
        ∧ (minPriceFilters.min_price ≠ none ∨ minPriceFilters.max_price ≠ none))
      ∨ (rowNoPrice.rent = none
        ∧ (minPriceFilters.min_rent ≠ none ∨ minPriceFilters.max_rent ≠ none))
      ∨ (rowNoPrice.area = none
        ∧ (minPriceFilters.min_area ≠ none ∨ minPriceFilters.max_area ≠ none))
      ∨ (rowNoPrice.rooms = none ∧ minPriceFilters.rooms ≠ none))
    ∧ rowNoPrice ∉ search [rowNoPrice] minPriceFilters :=
  ⟨by decide, search_none_field_excluded [rowNoPrice] minPriceFilters rowNoPrice
    (by decide)⟩

/-- C10: a numeric search parameter whose text does not parse is silently
dropped by the route's request parsing — the result is the same as if the
parameter had not been supplied at all. -/
theorem search_unparseable_params_ignored (r : RawQuery) (db : List Property)
    (s : String) :
    (pyFloat s = none →
        properties_route { r with min_price := some s } db
          = properties_route { r with min_price := none } db
      ∧ properties_route { r with max_price := some s } db
          = properties_route { r with max_price := none } db
      ∧ properties_route { r with min_rent := some s } db
          = properties_route { r with min_rent := none } db
      ∧ properties_route { r with max_rent := some s } db
          = properties_route { r with max_rent := none } db
      ∧ properties_route { r with min_area := some s } db
          = properties_route { r with min_area := none } db
      ∧ properties_route { r with max_area := some s } db
          = properties_route { r with max_area := none } db)
    ∧ (pyInt s = none →
        properties_route { r with rooms := some s } db
          = properties_route { r with rooms := none } db) := by
  constructor
  · intro h
    refine ⟨?_, ?_, ?_, ?_, ?_, ?_⟩ <;> simp [properties_route, parseFilters, h]
  · intro h
    simp [properties_route, parseFilters, h]

/-- A raw query string supplying nothing. -/
def emptyRawQuery : RawQuery where
  location := none
  ptype := none
  mode := none
  min_price := none
  max_price := none
  min_rent := none
  max_rent := none
  min_area := none
  max_area := none
  rooms := none

/-- C10, witness: `min_price=abc` behaves as an absent `min_price`. -/
theorem search_unparseable_params_ignored_witness :
    properties_route { emptyRawQuery with min_price := some "abc" } []
      = properties_route { emptyRawQuery with min_price := none } [] :=
  ((search_unparseable_params_ignored emptyRawQuery [] "abc").1 (by decide)).1

/-- The demo user seeded by `init_db`. -/
def demoUser : User where
  id := 1
  name := "Demo Owner"
  email := "owner@example.com"
  password_hash := "h"
  role := "owner"

/-- An empty application state: no listings, no uploads. -/
def emptySt : AppState where
  db := []
  media := []

/-- A create form with an empty title, an empty contact and a negative
price text. -/
def badForm : ListingForm where
  title := ""
  description := none
  location := "L"
  property_type := "house"
  sale_or_rent := "sale"
  area := none
  price := some "-5"
  rent := none
  rooms := none
  contact := ""
  gmap_link := some "g"
  image := none

/-- The row the create route persists from `badForm`. -/
def badRow : Property where
  id := 1
  title := ""
  description := none
  location := "L"
  property_type := "house"
  sale_or_rent := "sale"
  price := some (-5)
  rent := none
  area := none
  rooms := none
  contact := ""
  image_filename := none
  gmap_link := "g"
  owner_id := 1

/-- C3, counterexample: the create route accepts a form with empty
required strings and a negative price — it persists the row instead of
failing with a validation error. -/
theorem add_no_validation_cex :
    ∃ p, add_property (some demoUser) badForm 1 emptySt
        = (.ok p, { db := [p], media := [] })
      ∧ p.title = "" ∧ p.contact = "" ∧ p.price = some (-5) := by
  refine ⟨badRow, ?_, rfl, rfl, ?_⟩ <;> decide

/-- C3 (amended): the create route performs no emptiness or
non-negativity validation.  For an authenticated caller, whenever every
supplied numeric field parses, the row is persisted verbatim — empty
required strings and negative numbers included; when a supplied numeric
field fails to parse, the request dies with an unhandled exception (not
a `ValidationError`) and no row is persisted. -/
theorem add_property_characterization (u : User) (form : ListingForm)
    (nextId : Nat) (st : AppState) :
    (∀ area price rent rooms,
      parseField pyFloat form.area = some area →
      parseField pyFloat form.price = some price →
      parseField pyFloat form.rent = some rent →
      parseField pyInt form.rooms = some rooms →
      ∃ p, add_property (some u) form nextId st
          = (.ok p, { db := st.db ++ [p],
                      media := (save_image_opt st.media form.image).2 })
        ∧ p.title = form.title ∧ p.location = form.location
        ∧ p.contact = form.contact ∧ p.price = price ∧ p.rent = rent
        ∧ p.area = area ∧ p.rooms = rooms ∧ p.owner_id = u.id)
    ∧ ((parseField pyFloat form.area = none
        ∨ parseField pyFloat form.price = none
        ∨ parseField pyFloat form.rent = none
        ∨ parseField pyInt form.rooms = none) →
      add_property (some u) form nextId st = (.crash, st)) := by
  constructor
  · intro area price rent rooms h1 h2 h3 h4
    unfold add_property
    rw [h1, h2, h3, h4]
    exact ⟨_, rfl, rfl, rfl, rfl, rfl, rfl, rfl, rfl, rfl⟩
  · intro h
    cases ha : parseField pyFloat form.area <;>
      cases hp : parseField pyFloat form.price <;>
      cases hr : parseField pyFloat form.rent <;>
      cases hm : parseField pyInt form.rooms <;>
      simp_all [add_property]

/-- The create form of the specification's example scenario, with no
`gmap_link` supplied. -/
def flatForm : ListingForm where
  title := "2BR Flat"
  description := none
  location := "Lagos, Nigeria"
  property_type := "house"
  sale_or_rent := "rent"
  area := none
  price := none
  rent := some "500"
  rooms := some "2"
  contact := "c"
  gmap_link := none
  image := none

/-- C3, witness: the characterization applied to the example form. -/
theorem add_property_characterization_witness :
    (parseField pyFloat flatForm.area = some none
      ∧ parseField pyFloat flatForm.price = some none
      ∧ parseField pyFloat flatForm.rent = some (some 500)
      ∧ parseField pyInt flatForm.rooms = some (some 2))
    ∧ ∃ p, add_property (some demoUser) flatForm 1 emptySt
          = (.ok p, { db := emptySt.db ++ [p],
                      media := (save_image_opt emptySt.media flatForm.image).2 })
        ∧ p.title = flatForm.title ∧ p.location = flatForm.location
        ∧ p.contact = flatForm.contact ∧ p.price = none ∧ p.rent = some 500
        ∧ p.area = none ∧ p.rooms = some 2 ∧ p.owner_id = demoUser.id :=
  ⟨⟨by decide, by decide, by decide, by decide⟩,
    (add_property_characterization demoUser flatForm 1 emptySt).1 none none
      (some 500) (some 2) (by decide) (by decide) (by decide) (by decide)⟩

/-- The row persisted from the example form when `gmap_link` is `"g "`. -/
def spacedLinkRow : Property where
  id := 1
  title := "2BR Flat"
  description := none
  location := "Lagos, Nigeria"
  property_type := "house"
  sale_or_rent := "rent"
  price := none
  rent := some 500
  area := none
  rooms := some 2
  contact := "c"
  image_filename := none
  gmap_link := "g"
  owner_id := 1

/-- C4, counterexample: a supplied non-blank `gmap_link` is not stored as
given — the route strips surrounding whitespace first, so `"g "` is
persisted as `"g"`. -/
theorem gmap_link_strip_cex :
    ∃ p, add_property (some demoUser) { flatForm with gmap_link := some "g " } 1
          emptySt
        = (.ok p, { db := [p], media := [] })
      ∧ ("g " : String) ≠ "" ∧ p.gmap_link ≠ "g " ∧ p.gmap_link = "g" := by
  refine ⟨spacedLinkRow, ?_, ?_, ?_, ?_⟩ <;> decide

/-- C4 (amended): when the supplied `gmap_link` is blank — absent, empty
or whitespace only — the persisted listing's `gmap_link` is the
maps-search URL embedding the percent-encoded location; a non-blank
`gmap_link` is stored after stripping surrounding whitespace. -/
theorem gmap_link_synthesis (u : User) (form : ListingForm) (nextId : Nat)
    (st : AppState) (area price rent : Option ℚ) (rooms : Option ℤ)
    (h1 : parseField pyFloat form.area = some area)
    (h2 : parseField pyFloat form.price = some price)
    (h3 : parseField pyFloat form.rent = some rent)
    (h4 : parseField pyInt form.rooms = some rooms) :
    ∃ p, (add_property (some u) form nextId st).1 = .ok p
      ∧ (pyStrip (form.gmap_link.getD "") = "" →
          p.gmap_link
            = "https://www.google.com/maps/search/?api=1&query="
              ++ quotePlus form.location)
      ∧ (pyStrip (form.gmap_link.getD "") ≠ "" →
          p.gmap_link = pyStrip (form.gmap_link.getD "")) := by
  unfold add_property
  rw [h1, h2, h3, h4]
  refine ⟨_, rfl, ?_, ?_⟩
  · intro hb
    simp [hb, build_gmaps_link]
  · intro hb
    simp [hb]

/-- C4, witness: the synthesis theorem applied to the example form, whose
`gmap_link` is omitted. -/
theorem gmap_link_synthesis_witness :
    (parseField pyFloat flatForm.area = some none
      ∧ parseField pyFloat flatForm.price = some none
      ∧ parseField pyFloat flatForm.rent = some (some 500)
      ∧ parseField pyInt flatForm.rooms = some (some 2))
    ∧ ∃ p, (add_property (some demoUser) flatForm 1 emptySt).1 = .ok p
      ∧ (pyStrip (flatForm.gmap_link.getD "") = "" →
          p.gmap_link
            = "https://www.google.com/maps/search/?api=1&query="
              ++ quotePlus flatForm.location)
      ∧ (pyStrip (flatForm.gmap_link.getD "") ≠ "" →
          p.gmap_link = pyStrip (flatForm.gmap_link.getD "")) :=
  ⟨⟨by decide, by decide, by decide, by decide⟩,
    gmap_link_synthesis demoUser flatForm 1 emptySt none none (some 500)
      (some 2) (by decide) (by decide) (by decide) (by decide)⟩

/-- C5: an edit attempt on an existing listing by an authenticated caller
other than its owner yields `Forbidden`, and the whole application state
— the listing's row included — is exactly as before: the ownership check
runs before any mutation. -/
theorem edit_forbidden_non_owner (caller : User) (pid : Nat)
    (form : ListingForm) (st : AppState) (p : Property)
    (hfind : st.db.find? (fun q => q.id == pid) = some p)
    (howner : p.owner_id ≠ caller.id) :
    edit_property (some caller) pid form st = (.forbidden, st) := by
  unfold edit_property
  rw [hfind]
  simp [howner]

/-- A second registered account, distinct from the demo owner. -/
def otherUser : User :=
  { demoUser with id := 2, email := "b@x.com" }

/-- A state holding just the example listing. -/
def lagosSt : AppState where
  db := [rowLagos]
  media := []

/-- C5, witness: the second account cannot edit the demo owner's listing. -/
theorem edit_forbidden_non_owner_witness :
    (lagosSt.db.find? (fun q => q.id == 1) = some rowLagos
      ∧ rowLagos.owner_id ≠ otherUser.id)
    ∧ edit_property (some otherUser) 1 flatForm lagosSt = (.forbidden, lagosSt) :=
  ⟨⟨by decide, by decide⟩,
    edit_forbidden_non_owner otherUser 1 flatForm lagosSt rowLagos (by decide)
      (by decide)⟩

/-- C6: an owner's delete succeeds, removes exactly the listing's row,
and touches the upload folder exactly when the row carries a (non-empty)
image reference: that file is removed — removing an already-absent name
changes nothing and raises nothing — and a row with no image reference
leaves the folder untouched. -/
theorem delete_by_owner (caller : User) (pid : Nat) (st : AppState)
    (p : Property)
    (hfind : st.db.find? (fun q => q.id == pid) = some p)
    (howner : p.owner_id = caller.id) :
    delete_property (some caller) pid st
      = (.deleted,
         { db := st.db.filter (fun q => q.id ≠ pid),
           media :=
             if (p.image_filename.getD "") ≠ "" then
               st.media.filter fun e => e.1 ≠ p.image_filename.getD ""
             else st.media })
    ∧ (p.image_filename = none →
        (delete_property (some caller) pid st).2.media = st.media)
    ∧ (∀ f, p.image_filename = some f → f ≠ "" →
        (delete_property (some caller) pid st).2.media
          = st.media.filter fun e => e.1 ≠ f) := by
  unfold delete_property
  rw [hfind]
  refine ⟨?_, ?_, ?_⟩
  · simp [howner]
  · intro hnone
    simp [howner, hnone]
  · intro f hf hne
    simp [howner, hf, hne]

/-- The example listing carrying an image reference. -/
def imgRow : Property :=
  { rowLagos with id := 5, image_filename := some "house.jpg" }

/-- A state holding the image-carrying listing and its stored file. -/
def imgSt : AppState where
  db := [imgRow]
  media := [("house.jpg", [7])]

/-- C6, witness: deleting the image-carrying listing as its owner. -/
theorem delete_by_owner_witness :
    (imgSt.db.find? (fun q => q.id == 5) = some imgRow
      ∧ imgRow.owner_id = demoUser.id)
    ∧ (delete_property (some demoUser) 5 imgSt
        = (.deleted,
           { db := imgSt.db.filter (fun q => q.id ≠ 5),
             media :=
               if (imgRow.image_filename.getD "") ≠ "" then
                 imgSt.media.filter fun e => e.1 ≠ imgRow.image_filename.getD ""
               else imgSt.media })
      ∧ (imgRow.image_filename = none →
          (delete_property (some demoUser) 5 imgSt).2.media = imgSt.media)
      ∧ (∀ f, imgRow.image_filename = some f → f ≠ "" →
          (delete_property (some demoUser) 5 imgSt).2.media
            = imgSt.media.filter fun e => e.1 ≠ f)) :=
  ⟨⟨by decide, by decide⟩,
    delete_by_owner demoUser 5 imgSt imgRow (by decide) (by decide)⟩

/-- C8: with no existing row under the normalized email, a first valid
registration succeeds; a second valid attempt whose email normalizes to
the same address is rejected with the duplicate-email message, adds no
row, and the first user remains the only row with that email. -/
theorem register_duplicate_email_conflict (f1 f2 : RegForm)
    (h1 h2 : String) (id1 id2 : Nat) (users0 : List User)
    (hempty : ∀ u ∈ users0, u.email ≠ normEmail f1.email)
    (hn1 : pyStrip f1.name ≠ "") (he1 : normEmail f1.email ≠ "")
    (hp1 : f1.password ≠ "")
    (hn2 : pyStrip f2.name ≠ "") (hp2 : f2.password ≠ "")
    (hsame : normEmail f1.email = normEmail f2.email) :
    ∃ u1,
      register f1 h1 id1 users0 = (.success, users0 ++ [u1])
      ∧ u1.email = normEmail f1.email
      ∧ register f2 h2 id2 (users0 ++ [u1]) = (.emailTakenMsg, users0 ++ [u1])
      ∧ (users0 ++ [u1]).filter (fun u => u.email == normEmail f1.email)
          = [u1] := by
  have e2 : normEmail f2.email = normEmail f1.email := hsame.symm
  refine ⟨⟨id1, pyStrip f1.name, normEmail f1.email, h1, f1.role.getD "owner"⟩,
    ?_, rfl, ?_, ?_⟩
  · have hany : users0.any (fun u => u.email == normEmail f1.email) = false := by
      rw [List.any_eq_false]
      intro u hu
      simpa using hempty u hu
    unfold register
    simp [hn1, he1, hp1, hany]
  · unfold register
    simp only [List.any_append]
    simp [hn2, hp2, e2, he1]
  · rw [List.filter_append]
    have hnil : users0.filter (fun u => u.email == normEmail f1.email) = [] := by
      rw [List.filter_eq_nil_iff]
      intro u hu
      simpa using hempty u hu
    simp [hnil]

/-- A first registration form. -/
def regForm1 : RegForm where
  name := "A"
  email := "User@X.com"
  password := "p"
  role := none

/-- A second registration form whose email differs only in case and
surrounding whitespace. -/
def regForm2 : RegForm where
  name := "B"
  email := " user@x.COM "
  password := "q"
  role := some "customer"

/-- C8, witness: the two concrete registrations collide. -/
theorem register_duplicate_email_conflict_witness :
    ((∀ u ∈ ([] : List User), u.email ≠ normEmail regForm1.email)
      ∧ pyStrip regForm1.name ≠ "" ∧ normEmail regForm1.email ≠ ""
      ∧ regForm1.password ≠ "" ∧ pyStrip regForm2.name ≠ ""
      ∧ regForm2.password ≠ ""
      ∧ normEmail regForm1.email = normEmail regForm2.email)
    ∧ ∃ u1,
      register regForm1 "ha" 1 [] = (.success, [] ++ [u1])
      ∧ u1.email = normEmail regForm1.email
      ∧ register regForm2 "hb" 2 ([] ++ [u1]) = (.emailTakenMsg, [] ++ [u1])
      ∧ ([] ++ [u1]).filter (fun u => u.email == normEmail regForm1.email)
          = [u1] :=
  ⟨⟨by simp, by decide, by decide, by decide, by decide, by decide, by decide⟩,
    register_duplicate_email_conflict regForm1 regForm2 "ha" "hb" 1 2 []
      (by simp) (by decide) (by decide) (by decide) (by decide) (by decide)
      (by decide)⟩

/-- A registration form carrying an arbitrary role string. -/
def roleForm : RegForm where
  name := "H"
  email := "h@x.com"
  password := "p"
  role := some "hacker"

/-- C9, counterexample: the role string from the form is stored without
validation — a registration with role `hacker` persists a user whose
role is neither `owner` nor `customer`. -/
theorem register_role_unvalidated_cex :
    ∃ u, register roleForm "ph" 1 [] = (.success, [u])
      ∧ u.role = "hacker" ∧ u.role ≠ "owner" ∧ u.role ≠ "customer" := by
  refine ⟨⟨1, "H", "h@x.com", "ph", "hacker"⟩, ?_, rfl, ?_, ?_⟩ <;> decide

/-- C9 (amended): a successful registration stores exactly the role
string the form supplied — no membership check against
`{owner, customer}` — and stores `owner` when the form supplies none. -/
theorem register_role_stored_verbatim (form : RegForm) (pwHash : String)
    (nextId : Nat) (users : List User)
    (hname : pyStrip form.name ≠ "") (hemail : normEmail form.email ≠ "")
    (hpw : form.password ≠ "")
    (hfree : users.any (fun u => u.email == normEmail form.email) = false) :
    ∃ u, register form pwHash nextId users = (.success, users ++ [u])
      ∧ u.role = form.role.getD "owner"
      ∧ (form.role = none → u.role = "owner") := by
  refine ⟨⟨nextId, pyStrip form.name, normEmail form.email, pwHash,
    form.role.getD "owner"⟩, ?_, rfl, ?_⟩
  · unfold register
    simp [hname, hemail, hpw, hfree]
  · intro h
    simp [h]

/-- C9, witness: a registration supplying no role stores role `owner`. -/
theorem register_role_stored_verbatim_witness :
    (pyStrip regForm1.name ≠ "" ∧ normEmail regForm1.email ≠ ""
      ∧ regForm1.password ≠ ""
      ∧ ([] : List User).any (fun u => u.email == normEmail regForm1.email)
          = false)
    ∧ ∃ u, register regForm1 "ha" 7 [] = (.success, [] ++ [u])
      ∧ u.role = regForm1.role.getD "owner"
      ∧ (regForm1.role = none → u.role = "owner") :=
  ⟨⟨by decide, by decide, by decide, by decide⟩,
    register_role_stored_verbatim regForm1 "ha" 7 [] (by decide) (by decide)
      (by decide) (by decide)⟩

/-- Value of a least-significant-first digit list. -/
def revVal : List Nat → Nat
  | [] => 0
  | d :: ds => d + 10 * revVal ds

theorem natDigitsRevF_val : ∀ fuel n, n ≤ fuel → revVal (natDigitsRevF fuel n) = n := by
  intro fuel
  induction fuel with
  | zero =>
    intro n hn
    have : n = 0 := by omega
    subst this
    simp [natDigitsRevF, revVal]
  | succ fuel ih =>
    intro n hn
    unfold natDigitsRevF
    by_cases h : n < 10
    · simp [h, revVal]
    · rw [if_neg h]
      have hdiv : n / 10 ≤ fuel := by omega
      simp [revVal, ih (n / 10) hdiv]
      omega

theorem natDigitsRevF_lt10 : ∀ fuel n d, d ∈ natDigitsRevF fuel n → d < 10 := by
  intro fuel
  induction fuel with
  | zero =>
    intro n d hd
    simp [natDigitsRevF] at hd
    omega
  | succ fuel ih =>
    intro n d hd
    unfold natDigitsRevF at hd
    by_cases h : n < 10
    · rw [if_pos h] at hd
      simp at hd
      omega
    · rw [if_neg h] at hd
      rcases List.mem_cons.mp hd with h1 | h1
      · omega
      · exact ih (n / 10) d h1

theorem digitChar_inj10 :
    ∀ a, a < 10 → ∀ b, b < 10 → digitChar a = digitChar b → a = b := by
  decide

theorem map_digitChar_inj :
    ∀ l1 l2 : List Nat, (∀ d ∈ l1, d < 10) → (∀ d ∈ l2, d < 10) →
      l1.map digitChar = l2.map digitChar → l1 = l2 := by
  intro l1
  induction l1 with
  | nil =>
    intro l2 _ _ h
    cases l2 with
    | nil => rfl
    | cons b t => simp at h
  | cons a t1 ih =>
    intro l2 h1 h2 h
    cases l2 with
    | nil => simp at h
    | cons b t2 =>
      simp only [List.map_cons, List.cons.injEq] at h
      have ha : a = b :=
        digitChar_inj10 a (h1 a (by simp)) b (h2 b (by simp)) h.1
      have ht : t1 = t2 :=
        ih t2 (fun d hd => h1 d (by simp [hd])) (fun d hd => h2 d (by simp [hd])) h.2
      rw [ha, ht]

theorem natStr_inj (m n : Nat) (h : natStr m = natStr n) : m = n := by
  unfold natStr at h
  have hdata := congrArg String.data h
  simp only at hdata
  have hrev : (natDigitsRev m).reverse = (natDigitsRev n).reverse :=
    map_digitChar_inj _ _
      (fun d hd => natDigitsRevF_lt10 m m d (List.mem_reverse.mp hd))
      (fun d hd => natDigitsRevF_lt10 n n d (List.mem_reverse.mp hd)) hdata
  have hdig : natDigitsRev m = natDigitsRev n := List.reverse_inj.mp hrev
  have hm := natDigitsRevF_val m m (Nat.le_refl m)
  have hn := natDigitsRevF_val n n (Nat.le_refl n)
  unfold natDigitsRev at hdig
  rw [← hm, ← hn, hdig]

theorem suffixName_inj (base ext : String) (i j : Nat)
    (h : suffixName base ext i = suffixName base ext j) : i = j := by
  unfold suffixName at h
  have hdata := congrArg String.data h
  simp only [String.data_append, List.append_assoc, List.singleton_append,
    List.cons_append, List.cons.injEq, List.append_cancel_left_eq,
    List.append_cancel_right_eq, true_and, and_true] at hdata
  apply natStr_inj
  have h3 := congrArg String.mk hdata
  simpa using h3

theorem exists_free_name (f : Nat → String) (hf : ∀ i j, f i = f j → i = j) :
    ∀ (n : Nat) (L : List String), L.length ≤ n → ∀ a,
      ∃ k, a ≤ k ∧ k ≤ a + L.length ∧ f k ∉ L := by
  intro n
  induction n with
  | zero =>
    intro L hL a
    have hnil : L = [] := List.eq_nil_of_length_eq_zero (by omega)
    exact ⟨a, Nat.le_refl a, by omega, by simp [hnil]⟩
  | succ n ih =>
    intro L hL a
    by_cases h : f a ∈ L
    · have hlen : (L.erase (f a)).length = L.length - 1 :=
        List.length_erase_of_mem h
      have hpos : 0 < L.length := List.length_pos_of_mem h
      obtain ⟨k, hk1, hk2, hk3⟩ := ih (L.erase (f a)) (by omega) (a + 1)
      refine ⟨k, by omega, by omega, ?_⟩
      intro hmem
      have hne : f k ≠ f a := by
        intro he
        have := hf _ _ he
        omega
      exact hk3 ((List.mem_erase_of_ne hne).mpr hmem)
    · exact ⟨a, Nat.le_refl a, by omega, h⟩

theorem collide_spec (names : List String) (base ext : String) :
    ∀ (fuel start : Nat),
      (∃ k, start ≤ k ∧ k < start + fuel ∧ suffixName base ext k ∉ names) →
      ∃ j, collide names base ext start fuel = suffixName base ext j
        ∧ start ≤ j ∧ suffixName base ext j ∉ names
        ∧ ∀ i, start ≤ i → i < j → suffixName base ext i ∈ names := by
  intro fuel
  induction fuel with
  | zero =>
    rintro start ⟨k, h1, h2, _⟩
    omega
  | succ fuel ih =>
    rintro start ⟨k, hk1, hk2, hk3⟩
    by_cases hmem : suffixName base ext start ∈ names
    · have hkne : k ≠ start := by
        intro he
        rw [he] at hk3
        exact hk3 hmem
      obtain ⟨j, hj1, hj2, hj3, hj4⟩ :=
        ih (start + 1) ⟨k, by omega, by omega, hk3⟩
      refine ⟨j, ?_, by omega, hj3, ?_⟩
      · rw [collide, if_pos hmem]
        exact hj1
      · intro i hi1 hi2
        rcases Nat.eq_or_lt_of_le hi1 with he | hlt
        · rw [← he]
          exact hmem
        · exact hj4 i hlt hi2
    · refine ⟨start, ?_, Nat.le_refl start, hmem, ?_⟩
      · rw [collide, if_neg hmem]
      · intro i hi1 hi2
        omega

/-- The stored file list after `save_image`: the chosen name is fresh, the
bytes are written under it on top of the previous folder contents, and in
a collision the chosen name is the first free `base_i ext`. -/
theorem save_image_spec (m : Media) (filename : String) (content : Bytes) :
    (save_image m filename content).2
        = ((save_image m filename content).1, content) :: m
    ∧ (save_image m filename content).1 ∉ mediaNames m
    ∧ (filename ∉ mediaNames m → (save_image m filename content).1 = filename)
    ∧ (filename ∈ mediaNames m →
        ∃ j, 1 ≤ j
          ∧ (save_image m filename content).1
              = suffixName (splitext filename).1 (splitext filename).2 j
          ∧ ∀ i, 1 ≤ i → i < j →
              suffixName (splitext filename).1 (splitext filename).2 i
                ∈ mediaNames m) := by
  by_cases hmem : filename ∈ mediaNames m
  · have hfree := exists_free_name
      (suffixName (splitext filename).1 (splitext filename).2)
      (suffixName_inj (splitext filename).1 (splitext filename).2)
      (mediaNames m).length (mediaNames m) (Nat.le_refl _) 1
    obtain ⟨k, hk1, hk2, hk3⟩ := hfree
    obtain ⟨j, hj1, hj2, hj3, hj4⟩ :=
      collide_spec (mediaNames m) (splitext filename).1 (splitext filename).2
        ((mediaNames m).length + 1) 1 ⟨k, hk1, by omega, hk3⟩
    have hres : (save_image m filename content).1
        = suffixName (splitext filename).1 (splitext filename).2 j := by
      unfold save_image
      simp only [hmem, if_pos]
      exact hj1
    refine ⟨?_, ?_, ?_, ?_⟩
    · unfold save_image
      simp [hmem]
    · rw [hres]
      exact hj3
    · intro h
      exact absurd hmem h
    · intro _
      exact ⟨j, hj2, hres, hj4⟩
  · refine ⟨?_, ?_, ?_, ?_⟩
    · unfold save_image
      simp [hmem]
    · have : (save_image m filename content).1 = filename := by
        unfold save_image
        simp [hmem]
      rw [this]
      exact hmem
    · intro _
      unfold save_image
      simp [hmem]
    · intro h
      exact absurd h hmem

/-- C7: storing two files in a row under the same proposed (sanitized)
name yields two distinct references: the second is `base_j ext` for the
first index `j ≥ 1` (`_1`, then `_2`, ...) not already present in the
folder, it is fresh, and both references retrieve exactly the bytes that
were stored under them. -/
theorem save_image_two_uploads (m : Media) (filename : String)
    (b1 b2 : Bytes) :
    (save_image m filename b1).1
        ≠ (save_image (save_image m filename b1).2 filename b2).1
    ∧ (∃ j, 1 ≤ j
        ∧ (save_image (save_image m filename b1).2 filename b2).1
            = suffixName (splitext filename).1 (splitext filename).2 j
        ∧ (save_image (save_image m filename b1).2 filename b2).1
            ∉ mediaNames (save_image m filename b1).2
        ∧ ∀ i, 1 ≤ i → i < j →
            suffixName (splitext filename).1 (splitext filename).2 i
              ∈ mediaNames (save_image m filename b1).2)
    ∧ List.lookup (save_image (save_image m filename b1).2 filename b2).1
        (save_image (save_image m filename b1).2 filename b2).2 = some b2
    ∧ List.lookup (save_image m filename b1).1
        (save_image (save_image m filename b1).2 filename b2).2 = some b1 := by
  obtain ⟨hst1, hfresh1, hnc1, hc1⟩ := save_image_spec m filename b1
  obtain ⟨hst2, hfresh2, hnc2, hc2⟩ :=
    save_image_spec (save_image m filename b1).2 filename b2
  have hr1mem : (save_image m filename b1).1
      ∈ mediaNames (save_image m filename b1).2 := by
    rw [hst1]
    simp [mediaNames]
  have hne : (save_image m filename b1).1
      ≠ (save_image (save_image m filename b1).2 filename b2).1 := by
    intro he
    rw [he] at hr1mem
    exact hfresh2 hr1mem
  have hfn2 : filename ∈ mediaNames (save_image m filename b1).2 := by
    rw [hst1]
    simp only [mediaNames, List.map_cons, List.mem_cons]
    by_cases hmem : filename ∈ mediaNames m
    · exact Or.inr hmem
    · exact Or.inl (hnc1 hmem).symm
  obtain ⟨j, hj1, hj2, hj4⟩ := hc2 hfn2
  refine ⟨hne, ⟨j, hj1, hj2, hfresh2, hj4⟩, ?_, ?_⟩
  · rw [hst2]
    exact List.lookup_cons_self
  · have hbeq : ((save_image m filename b1).1
        == (save_image (save_image m filename b1).2 filename b2).1) = false :=
      beq_eq_false_iff_ne.mpr hne
    rw [hst2, hst1]
    rw [hst1] at hbeq
    simp [List.lookup_cons, hbeq]
